import Mathlib

/-!
# GEMM benchmark programs: cuBLAS and clBLAS drivers

A shallow embedding of `src/gemm/cublas_dgemm.cpp` and `src/gemm/clblas_dgemm.cpp`.

Each `main` is a straight-line sequence of backend calls guarded by status checks.
The embedding makes the backend an oracle of returned status codes and records
every backend call and every printed line in an event list, together with the
process exit status and the final memory (device buffers and the host result
matrix `z`).

* `double` values are modelled by `ℚ` (exact arithmetic).
* `int` is `Int`, with the 32-bit wrap of `size * size` explicit in `wrapInt32`;
  `size_t` is `Nat` modulo `2^64`.
* The backend calls act on memory by their reference semantics, and only when
  the oracle reports success for the call.
* The Armadillo constructors (`arma::mat x(size, size, ...)`) are assumed to
  succeed; `size` is the value `atoi(argv[1])` returned.
-/

namespace GemmBench

/-! ## Constants of the C, CUDA and OpenCL headers -/

/-- `EXIT_SUCCESS` of `<stdlib.h>`. -/
def EXIT_SUCCESS : Int := 0

/-- `EXIT_FAILURE` of `<stdlib.h>`. -/
def EXIT_FAILURE : Int := 1

/-- `CUBLAS_STATUS_SUCCESS` of `<cublas_v2.h>`. -/
def CUBLAS_STATUS_SUCCESS : Int := 0

/-- `cudaSuccess` of `<cuda_runtime.h>`. -/
def cudaSuccess : Int := 0

/-- `clblasSuccess` (`CL_SUCCESS`) of `<clBLAS.h>`. -/
def clblasSuccess : Int := 0

/-- `clblasInvalidValue` (`CL_INVALID_VALUE`) of `<clBLAS.h>`. -/
def clblasInvalidValue : Int := -30

/-- `clblasInvalidDevice` (`CL_INVALID_DEVICE`) of `<clBLAS.h>`. -/
def clblasInvalidDevice : Int := -33

/-- `sizeof(double)`. -/
def sizeofDouble : Nat := 8

/-! ## Machine integers -/

/-- Two's-complement wrap of a mathematical integer into a 32-bit `int`. -/
def wrapInt32 (v : Int) : Int := (v + 2 ^ 31) % 2 ^ 32 - 2 ^ 31

/-- Conversion of an `int` to the 64-bit `size_t`. -/
def toSizeT (v : Int) : Nat := (v % 2 ^ 64).toNat

/-- `const size_t bufSize = size * size * sizeof(double);`
(`size * size` is an `int` product, widened to `size_t` for the second product). -/
def bufSize (size : Int) : Nat :=
  (toSizeT (wrapInt32 (size * size)) * sizeofDouble) % 2 ^ 64

/-! ## Buffers, calls and events -/

/-- The three device buffers (`devPtrA/B/C`, `bufA/B/C`). -/
inductive Buf where
  | A
  | B
  | C
  deriving DecidableEq, Repr

/-- The three host matrices. -/
inductive HostMat where
  | x
  | y
  | z
  deriving DecidableEq, Repr

/-- Transposition flag (`CUBLAS_OP_N`/`clblasNoTrans`, `CUBLAS_OP_T`/`clblasTrans`). -/
inductive Transpose where
  | NoTrans
  | Trans
  deriving DecidableEq, Repr

/-- Storage order (`clblasRowMajor`, `clblasColumnMajor`); cuBLAS is always column-major. -/
inductive Order where
  | RowMajor
  | ColumnMajor
  deriving DecidableEq, Repr

/-- Buffer access flags of `clCreateBuffer`. -/
inductive MemFlags where
  | CL_MEM_READ_ONLY
  | CL_MEM_READ_WRITE
  deriving DecidableEq, Repr

/-- The CUDA/cuBLAS calls made by `cublas_dgemm.cpp`, with their arguments. -/
inductive CudaCall where
  | cublasCreate
  | cudaMalloc (dst : Buf) (bytes : Nat)
  | cudaMemcpyHostToDevice (dst : Buf) (src : HostMat) (bytes : Nat)
  | cublasDgemm_v2 (transa transb : Transpose) (m n k : Int) (alpha : ℚ)
      (bufA : Buf) (lda : Int) (bufB : Buf) (ldb : Int) (beta : ℚ) (bufC : Buf) (ldc : Int)
  | cudaThreadSynchronize
  | cublasGetMatrix (rows cols : Int) (elemSize : Nat) (src : Buf) (lda : Int)
      (dst : HostMat) (ldb : Int)
  | cudaFree (p : Buf)
  | cublasDestroy
  deriving DecidableEq

/-- The OpenCL/clBLAS calls made by `clblas_dgemm.cpp`, with their arguments. -/
inductive ClCall where
  | clGetPlatformIDs
  | clGetDeviceIDs
  | clCreateContext
  | clCreateCommandQueue
  | clblasSetup
  | clCreateBuffer (dst : Buf) (flags : MemFlags) (bytes : Nat)
  | clEnqueueWriteBuffer (buf : Buf) (blocking : Bool) (offset bytes : Nat) (src : HostMat)
  | clblasDgemm (order : Order) (transA transB : Transpose) (M N K : Nat) (alpha : ℚ)
      (bufA : Buf) (offA lda : Nat) (bufB : Buf) (offB ldb : Nat) (beta : ℚ)
      (bufC : Buf) (offC ldc : Nat)
  | clWaitForEvents
  | clEnqueueReadBuffer (buf : Buf) (blocking : Bool) (offset bytes : Nat) (dst : HostMat)
  | clReleaseMemObject (buf : Buf)
  | clblasTeardown
  | clReleaseCommandQueue
  | clReleaseContext
  deriving DecidableEq

/-- What a run does that is observable: backend calls and printed lines, in order. -/
inductive Event (Call : Type) where
  /-- a backend call -/
  | call (c : Call)
  /-- a fixed line on `std::cout` -/
  | out (text : String)
  /-- a fixed line on `std::cerr` -/
  | err (text : String)
  /-- the line `error <code>!` on `std::cerr` -/
  | errCode (code : Int)
  /-- a timing line `<label>: <seconds>s` on `std::cout` (the clock value is not modelled) -/
  | timing (label : String)
  /-- the line `element <i> differs: <z> vs. <zz>!` on `std::cout` -/
  | differs (i : Nat) (z zz : ℚ)
  deriving DecidableEq

/-- The usage message printed when `argv[1]` is missing. -/
def usageText : String := "what is the size of the matrix you want to multiply!?"

/-! ## Memory -/

/-- Device buffers and the host result matrix `z`, as flat arrays of doubles. -/
structure Mem where
  dev : Buf → Nat → ℚ
  z : Nat → ℚ

/-- The host side at start: the random operands `x`, `y` (column-major, as
`memptr()` exposes them), the initial content of `z`, and the content the
device buffers have when allocated. -/
structure Host where
  x : Nat → ℚ
  y : Nat → ℚ
  z0 : Nat → ℚ
  dev0 : Buf → Nat → ℚ

/-- The result of a run. -/
structure Run (Call : Type) where
  events : List (Event Call)
  exit : Int
  mem : Mem

/-- The backend calls of an event list, in order. -/
def calls {Call : Type} (evs : List (Event Call)) : List Call :=
  evs.filterMap (fun e => match e with
    | .call c => some c
    | _ => none)

/-! ## Reference semantics of the backend calls on memory -/

/-- Host-to-device transfer of `bytes` bytes into `dst` starting at byte `offset`. -/
def writeDevice (m : Mem) (dst : Buf) (offset bytes : Nat) (src : Nat → ℚ) : Mem :=
  { m with dev := fun b p =>
      if b = dst ∧ offset / sizeofDouble ≤ p ∧ p < offset / sizeofDouble + bytes / sizeofDouble
      then src (p - offset / sizeofDouble) else m.dev b p }

/-- Device-to-host transfer of `bytes` bytes from `src` starting at byte `offset` into `z`. -/
def readDevice (m : Mem) (src : Buf) (offset bytes : Nat) : Mem :=
  { m with z := fun p =>
      if p < bytes / sizeofDouble then m.dev src (offset / sizeofDouble + p) else m.z p }

/-- `cublasGetMatrix(rows, cols, elemSize, A, lda, B, ldb)`: copies a `rows × cols`
column-major tile of device buffer `src` into the host matrix `z`. -/
def getMatrix (m : Mem) (rows cols : Nat) (src : Buf) (lda ldb : Nat) : Mem :=
  { m with z := fun p =>
      if 0 < ldb ∧ p % ldb < rows ∧ p / ldb < cols
      then m.dev src (p % ldb + (p / ldb) * lda) else m.z p }

/-- Entry `(i, j)` of `op(M)` for a matrix stored in `mem` from `off` with leading
dimension `ld`. -/
def opElem (order : Order) (t : Transpose) (mem : Nat → ℚ) (off ld i j : Nat) : ℚ :=
  match order, t with
  | .ColumnMajor, .NoTrans => mem (off + i + j * ld)
  | .ColumnMajor, .Trans => mem (off + j + i * ld)
  | .RowMajor, .NoTrans => mem (off + i * ld + j)
  | .RowMajor, .Trans => mem (off + j * ld + i)

/-- Reference GEMM, `C := alpha * op(A) * op(B) + beta * C`, on flat arrays:
the new content of the array holding `C`. -/
def gemmRef (order : Order) (ta tb : Transpose) (M N K : Nat) (alpha : ℚ)
    (A : Nat → ℚ) (offA lda : Nat) (B : Nat → ℚ) (offB ldb : Nat) (beta : ℚ)
    (C : Nat → ℚ) (offC ldc : Nat) : Nat → ℚ := fun p =>
  if offC ≤ p ∧ 0 < ldc then
    let i := match order with
      | .ColumnMajor => (p - offC) % ldc
      | .RowMajor => (p - offC) / ldc
    let j := match order with
      | .ColumnMajor => (p - offC) / ldc
      | .RowMajor => (p - offC) % ldc
    if i < M ∧ j < N then
      alpha * (Finset.sum (Finset.range K) (fun l =>
        opElem order ta A offA lda i l * opElem order tb B offB ldb l j)) + beta * C p
    else C p
  else C p

/-- The GEMM call applied to device memory. -/
def dgemm (m : Mem) (order : Order) (ta tb : Transpose) (M N K : Nat) (alpha : ℚ)
    (bufA : Buf) (offA lda : Nat) (bufB : Buf) (offB ldb : Nat) (beta : ℚ)
    (bufC : Buf) (offC ldc : Nat) : Mem :=
  let result := gemmRef order ta tb M N K alpha (m.dev bufA) offA lda (m.dev bufB) offB ldb
    beta (m.dev bufC) offC ldc
  { m with dev := fun b => if b = bufC then result else m.dev b }

/-- A call changes memory only when the backend reports success for it. -/
def onSuccess (status : Int) (m after : Mem) : Mem :=
  if status = 0 then after else m

/-! ## Armadillo: the CPU reference product and the verification loop -/

/-- `arma::mat zz = x * y` for `n × n` column-major operands. -/
def armaMul (n : Nat) (x y : Nat → ℚ) : Nat → ℚ := fun p =>
  if p < n * n then
    Finset.sum (Finset.range n) (fun l => x (p % n + l * n) * y (l + (p / n) * n))
  else 0

/-- The loop `for (size_t i = ...; i < zz.n_elem; ++i) if (std::abs(z[i] - zz[i]) > 1e-5) ...`
from index `i`, with `remaining = zz.n_elem - i` iterations left. -/
def verifyLoopFrom {Call : Type} (z zz : Nat → ℚ) : (remaining : Nat) → (i : Nat) →
    List (Event Call)
  | 0, _ => []
  | k + 1, i =>
    (if abs (z i - zz i) > 1e-5 then [Event.differs i (z i) (zz i)] else [])
      ++ verifyLoopFrom z zz k (i + 1)

/-- The verification loop of both programs. -/
def verifyLoop {Call : Type} (z zz : Nat → ℚ) (nElem : Nat) : List (Event Call) :=
  verifyLoopFrom z zz nElem 0

/-! ## `cublas_dgemm.cpp` -/

/-- Statuses the CUDA backend reports, one per call whose result the program stores. -/
structure CudaStatuses where
  cublasCreate : Int
  mallocA : Int
  mallocB : Int
  mallocC : Int
  memcpyA : Int
  memcpyB : Int
  dgemm : Int
  getMatrix : Int

set_option linter.unusedVariables false in
/-- `main` of `cublas_dgemm.cpp`. Each `let cudaStat`/`let stat` is an assignment to the
variable of that name, so a later one overwrites an earlier one, as in the source. -/
def cublasMain (argc : Int) (size : Int) (h : Host) (st : CudaStatuses) : Run CudaCall :=
  let mem : Mem := { dev := h.dev0, z := h.z0 }
  if argc < 2 then
    { events := [.out usageText], exit := -1, mem := mem }
  else
    let ev : List (Event CudaCall) := [.timing "matrix initialization time"]
    let bufSize : Nat := bufSize size
    let stat : Int := st.cublasCreate
    let ev : List (Event CudaCall) := ev.append [.call .cublasCreate]
    if stat ≠ CUBLAS_STATUS_SUCCESS then
      { events := ev.append [.out "CUBLAS initialization failed"],
        exit := EXIT_FAILURE, mem := mem }
    else
      let cudaStat : Int := st.mallocA
      let ev : List (Event CudaCall) := ev.append [.call (.cudaMalloc .A bufSize)]
      let cudaStat : Int := st.mallocB
      let ev : List (Event CudaCall) := ev.append [.call (.cudaMalloc .B bufSize)]
      let cudaStat : Int := st.mallocC
      let ev : List (Event CudaCall) := ev.append [.call (.cudaMalloc .C bufSize)]
      if cudaStat ≠ cudaSuccess then
        { events := ev.append [.out "device memory allocation failed"],
          exit := EXIT_FAILURE, mem := mem }
      else
        let cudaStat : Int := st.memcpyA
        let ev : List (Event CudaCall) :=
          ev.append [.call (.cudaMemcpyHostToDevice .A .x bufSize)]
        let mem : Mem := onSuccess cudaStat mem (writeDevice mem .A 0 bufSize h.x)
        let cudaStat : Int := st.memcpyB
        let ev : List (Event CudaCall) :=
          ev.append [.call (.cudaMemcpyHostToDevice .B .y bufSize)]
        let mem : Mem := onSuccess cudaStat mem (writeDevice mem .B 0 bufSize h.y)
        if cudaStat ≠ cudaSuccess then
          { events := ev.append [.out "data load to GPU failed", .call (.cudaFree .A),
              .call (.cudaFree .B), .call (.cudaFree .C), .call .cublasDestroy],
            exit := EXIT_FAILURE, mem := mem }
        else
          let ev : List (Event CudaCall) := ev.append [.timing "buffer copy"]
          let alpha : ℚ := 1.0
          let beta : ℚ := 0.0
          let stat : Int := st.dgemm
          let ev : List (Event CudaCall) :=
            ev.append [.call (.cublasDgemm_v2 .NoTrans .NoTrans size size size alpha
              .A size .B size beta .C size)]
          let mem : Mem := onSuccess stat mem (dgemm mem .ColumnMajor .NoTrans .NoTrans
            size.toNat size.toNat size.toNat alpha .A 0 size.toNat .B 0 size.toNat beta
            .C 0 size.toNat)
          let ev : List (Event CudaCall) :=
            ev.append [.call .cudaThreadSynchronize, .timing "multiply time"]
          if stat ≠ CUBLAS_STATUS_SUCCESS then
            { events := ev.append [.out "failed multiply", .call (.cudaFree .A),
                .call (.cudaFree .B), .call (.cudaFree .C), .call .cublasDestroy],
              exit := EXIT_FAILURE, mem := mem }
          else
            let stat : Int := st.getMatrix
            let ev : List (Event CudaCall) :=
              ev.append [.call (.cublasGetMatrix size size sizeofDouble .C size .z size)]
            let mem : Mem := onSuccess stat mem (getMatrix mem size.toNat size.toNat .C
              size.toNat size.toNat)
            if stat ≠ CUBLAS_STATUS_SUCCESS then
              { events := ev.append [.out "data load from GPU failed", .call (.cudaFree .A),
                  .call (.cudaFree .B), .call (.cudaFree .C), .call .cublasDestroy],
                exit := EXIT_FAILURE, mem := mem }
            else
              let ev : List (Event CudaCall) := ev.append [.call (.cudaFree .A),
                .call (.cudaFree .B), .call (.cudaFree .C), .call .cublasDestroy]
              let zz : Nat → ℚ := armaMul size.toNat h.x h.y
              let ev : List (Event CudaCall) := ev.append [.timing "cpu multiply time"]
              let ev : List (Event CudaCall) :=
                ev.append (verifyLoop mem.z zz (size.toNat * size.toNat))
              { events := ev, exit := EXIT_SUCCESS, mem := mem }

/-! ## `clblas_dgemm.cpp` -/

/-- Statuses the OpenCL backend reports, one per call whose result the program stores
in `err`. -/
structure ClStatuses where
  getPlatformIDs : Int
  getDeviceIDs : Int
  createContext : Int
  createCommandQueue : Int
  setup : Int
  createA : Int
  createB : Int
  createC : Int
  writeA : Int
  writeB : Int
  dgemm : Int
  waitForEvents : Int
  readC : Int

set_option linter.unusedVariables false in
/-- `main` of `clblas_dgemm.cpp`. Every result is stored in the one variable `err`, which
is read only after the GEMM call; `ret` is the value returned. -/
def clblasMain (argc : Int) (size : Int) (h : Host) (st : ClStatuses) : Run ClCall :=
  let mem : Mem := { dev := h.dev0, z := h.z0 }
  if argc < 2 then
    { events := [.out usageText], exit := -1, mem := mem }
  else
    let ret : Int := 0
    let ev : List (Event ClCall) := [.timing "matrix initialization time"]
    let err : Int := st.getPlatformIDs
    let ev : List (Event ClCall) := ev.append [.call .clGetPlatformIDs]
    let err : Int := st.getDeviceIDs
    let ev : List (Event ClCall) := ev.append [.call .clGetDeviceIDs]
    let err : Int := st.createContext
    let ev : List (Event ClCall) := ev.append [.call .clCreateContext]
    let err : Int := st.createCommandQueue
    let ev : List (Event ClCall) := ev.append [.call .clCreateCommandQueue]
    let err : Int := st.setup
    let ev : List (Event ClCall) := ev.append [.call .clblasSetup]
    let bufSize : Nat := bufSize size
    let err : Int := st.createA
    let ev : List (Event ClCall) :=
      ev.append [.call (.clCreateBuffer .A .CL_MEM_READ_ONLY bufSize)]
    let err : Int := st.createB
    let ev : List (Event ClCall) :=
      ev.append [.call (.clCreateBuffer .B .CL_MEM_READ_ONLY bufSize)]
    let err : Int := st.createC
    let ev : List (Event ClCall) :=
      ev.append [.call (.clCreateBuffer .C .CL_MEM_READ_WRITE bufSize)]
    let err : Int := st.writeA
    let ev : List (Event ClCall) :=
      ev.append [.call (.clEnqueueWriteBuffer .A true 0 bufSize .x)]
    let mem : Mem := onSuccess err mem (writeDevice mem .A 0 bufSize h.x)
    let err : Int := st.writeB
    let ev : List (Event ClCall) :=
      ev.append [.call (.clEnqueueWriteBuffer .B true 0 bufSize .y)]
    let mem : Mem := onSuccess err mem (writeDevice mem .B 0 bufSize h.y)
    let ev : List (Event ClCall) := ev.append [.timing "buffer copy"]
    let err : Int := st.dgemm
    let ev : List (Event ClCall) :=
      ev.append [.call (.clblasDgemm .ColumnMajor .NoTrans .NoTrans (toSizeT size)
        (toSizeT size) (toSizeT size) 1.0 .A 0 (toSizeT size) .B 0 (toSizeT size) 0.0
        .C 0 (toSizeT size))]
    let mem : Mem := onSuccess err mem
      (dgemm mem .ColumnMajor .NoTrans .NoTrans (toSizeT size)
        (toSizeT size) (toSizeT size) 1.0 .A 0 (toSizeT size) .B 0 (toSizeT size) 0.0
        .C 0 (toSizeT size))
    let ev : List (Event ClCall) := ev.append
      (if err = clblasInvalidDevice then [.err "invalid device!"]
       else if err = clblasInvalidValue then [.err "invalid value!"]
       else if err ≠ clblasSuccess then [.errCode err]
       else [])
    let err : Int := st.waitForEvents
    let ev : List (Event ClCall) :=
      ev.append [.call .clWaitForEvents, .timing "multiply time"]
    let err : Int := st.readC
    let ev : List (Event ClCall) :=
      ev.append [.call (.clEnqueueReadBuffer .C true 0 bufSize .z)]
    let mem : Mem := onSuccess err mem (readDevice mem .C 0 bufSize)
    let ev : List (Event ClCall) := ev.append [.call (.clReleaseMemObject .C),
      .call (.clReleaseMemObject .B), .call (.clReleaseMemObject .A)]
    let ev : List (Event ClCall) := ev.append [.call .clblasTeardown]
    let ev : List (Event ClCall) :=
      ev.append [.call .clReleaseCommandQueue, .call .clReleaseContext]
    let zz : Nat → ℚ := armaMul size.toNat h.x h.y
    let ev : List (Event ClCall) := ev.append [.timing "cpu multiply time"]
    let ev : List (Event ClCall) :=
      ev.append (verifyLoop mem.z zz (size.toNat * size.toNat))
    { events := ev, exit := ret, mem := mem }

/-! ## Vocabulary of the properties -/

/-- What a backend call means for the buffer lifecycle. -/
inductive BufOp where
  | alloc (b : Buf)
  | release (b : Buf)
  | teardown
  | other
  deriving DecidableEq, Repr

/-- Lifecycle reading of the CUDA calls: `cudaMalloc` allocates, `cudaFree` releases,
`cublasDestroy` tears the handle down. -/
def CudaCall.bufOp : CudaCall → BufOp
  | .cudaMalloc b _ => .alloc b
  | .cudaFree b => .release b
  | .cublasDestroy => .teardown
  | _ => .other

/-- Lifecycle reading of the OpenCL calls: `clCreateBuffer` allocates,
`clReleaseMemObject` releases, and `clblasTeardown`, `clReleaseCommandQueue`,
`clReleaseContext` tear the context down. -/
def ClCall.bufOp : ClCall → BufOp
  | .clCreateBuffer b _ _ => .alloc b
  | .clReleaseMemObject b => .release b
  | .clblasTeardown => .teardown
  | .clReleaseCommandQueue => .teardown
  | .clReleaseContext => .teardown
  | _ => .other

/-- The buffers live after a sequence of lifecycle operations. Every allocation call
counts, whatever status it reported, so this is an upper bound of the buffers that
really exist. -/
def liveAfter (ops : List BufOp) : List Buf :=
  ops.foldl (fun live op => match op with
    | .alloc b => if b ∈ live then live else b :: live
    | .release b => live.erase b
    | _ => live) []

/-- The stages of the offload the ordering claims speak of. -/
inductive Stage where
  | uploadA
  | uploadB
  | gemm
  | barrier
  | download
  | other
  deriving DecidableEq, Repr

/-- Stage of a CUDA call. `cudaMemcpy` is the blocking copy. -/
def CudaCall.stage : CudaCall → Stage
  | .cudaMemcpyHostToDevice .A .x _ => .uploadA
  | .cudaMemcpyHostToDevice .B .y _ => .uploadB
  | .cublasDgemm_v2 .. => .gemm
  | .cudaThreadSynchronize => .barrier
  | .cublasGetMatrix .. => .download
  | _ => .other

/-- Stage of an OpenCL call. Only a write enqueued with `blocking_write = CL_TRUE`
counts as a blocking upload. -/
def ClCall.stage : ClCall → Stage
  | .clEnqueueWriteBuffer .A true _ _ .x => .uploadA
  | .clEnqueueWriteBuffer .B true _ _ .y => .uploadB
  | .clblasDgemm .. => .gemm
  | .clWaitForEvents => .barrier
  | .clEnqueueReadBuffer .. => .download
  | _ => .other

/-- Every download in a stage list is preceded, in this order, by the upload of A,
the upload of B, the GEMM call and the barrier. -/
def OrderedOffload (ks : List Stage) : Prop :=
  ∀ i, i < ks.length → ks[i]? = some Stage.download →
    ∃ s, s < i ∧ ks[s]? = some Stage.barrier ∧
    ∃ g, g < s ∧ ks[g]? = some Stage.gemm ∧
    ∃ b, b < g ∧ ks[b]? = some Stage.uploadB ∧
    ∃ a, a < b ∧ ks[a]? = some Stage.uploadA

/-- At every teardown operation no buffer is live and each of the three buffers has
been released exactly once before it; no buffer is released twice in the whole list. -/
def TeardownSafe (ops : List BufOp) : Prop :=
  (∀ i, i < ops.length → ops[i]? = some BufOp.teardown →
    liveAfter (ops.take i) = [] ∧
    ∀ b : Buf, (ops.take i).count (BufOp.release b) = 1) ∧
  ∀ b : Buf, ops.count (BufOp.release b) ≤ 1

/-- A flat column-major array read as an `n × n` matrix. -/
def asMatrix (n : Nat) (mem : Nat → ℚ) : Matrix (Fin n) (Fin n) ℚ :=
  fun i j => mem (i.val + j.val * n)

/-- A host whose memory is all zero. -/
def zeroHost : Host :=
  { x := fun _ => 0, y := fun _ => 0, z0 := fun _ => 0, dev0 := fun _ _ => 0 }

/-- A host whose operands are all-ones matrices and whose other memory is zero. -/
def onesHost : Host :=
  { x := fun _ => 1, y := fun _ => 1, z0 := fun _ => 0, dev0 := fun _ _ => 0 }

/-- The CUDA backend reporting success for every call. -/
def cudaOk : CudaStatuses :=
  { cublasCreate := 0, mallocA := 0, mallocB := 0, mallocC := 0, memcpyA := 0,
    memcpyB := 0, dgemm := 0, getMatrix := 0 }

/-- The OpenCL backend reporting success for every call. -/
def clOk : ClStatuses :=
  { getPlatformIDs := 0, getDeviceIDs := 0, createContext := 0, createCommandQueue := 0,
    setup := 0, createA := 0, createB := 0, createC := 0, writeA := 0, writeB := 0,
    dgemm := 0, waitForEvents := 0, readC := 0 }

set_option synthInstance.maxSize 1000 in
set_option synthInstance.maxHeartbeats 200000 in
instance (ks : List Stage) : Decidable (OrderedOffload ks) :=
  inferInstanceAs (Decidable (∀ i, i < ks.length → ks[i]? = some Stage.download →
    ∃ s, s < i ∧ ks[s]? = some Stage.barrier ∧
    ∃ g, g < s ∧ ks[g]? = some Stage.gemm ∧
    ∃ b, b < g ∧ ks[b]? = some Stage.uploadB ∧
    ∃ a, a < b ∧ ks[a]? = some Stage.uploadA))

instance (ops : List BufOp) : Decidable (TeardownSafe ops) := by
  unfold TeardownSafe
  have : ∀ (P : Buf → Prop) [DecidablePred P], Decidable (∀ b, P b) := fun P _ =>
    decidable_of_iff (P .A ∧ P .B ∧ P .C)
      ⟨fun h b => by cases b <;> simp [h.1, h.2.1, h.2.2], fun h => ⟨h _, h _, h _⟩⟩
  infer_instance

/-- The CUDA backend failing only the allocation of `devPtrC` (`cudaErrorMemoryAllocation`). -/
def cudaAllocCFails : CudaStatuses := { cudaOk with mallocC := 2 }

/-- The CUDA backend failing only the allocation of `devPtrA` (`cudaErrorMemoryAllocation`). -/
def cudaAllocAFails : CudaStatuses := { cudaOk with mallocA := 2 }

/-- The CUDA backend failing only the host-to-device copy of operand A. -/
def cudaCopyAFails : CudaStatuses := { cudaOk with memcpyA := 1 }

/-- The OpenCL backend failing only the GEMM call, with `clblasInvalidValue`. -/
def clGemmFails : ClStatuses := { clOk with dgemm := clblasInvalidValue }

theorem calls_nil {Call : Type} : calls ([] : List (Event Call)) = [] := rfl

theorem calls_append {Call : Type} (a b : List (Event Call)) :
    calls (a ++ b) = calls a ++ calls b := by
  simp [calls, List.filterMap_append]

theorem calls_cons_call {Call : Type} (c : Call) (a : List (Event Call)) :
    calls (Event.call c :: a) = c :: calls a := by
  simp [calls, List.filterMap_cons]

theorem calls_cons_out {Call : Type} (t : String) (a : List (Event Call)) :
    calls (Event.out t :: a) = calls a := by
  simp [calls, List.filterMap_cons]

theorem calls_cons_err {Call : Type} (t : String) (a : List (Event Call)) :
    calls (Event.err t :: a) = calls a := by
  simp [calls, List.filterMap_cons]

theorem calls_cons_errCode {Call : Type} (c : Int) (a : List (Event Call)) :
    calls (Event.errCode c :: a) = calls a := by
  simp [calls, List.filterMap_cons]

theorem calls_cons_timing {Call : Type} (t : String) (a : List (Event Call)) :
    calls (Event.timing t :: a) = calls a := by
  simp [calls, List.filterMap_cons]

theorem calls_cons_differs {Call : Type} (i : Nat) (u v : ℚ) (a : List (Event Call)) :
    calls (Event.differs i u v :: a) = calls a := by
  simp [calls, List.filterMap_cons]

theorem calls_verifyLoopFrom {Call : Type} (z zz : Nat → ℚ) (k i : Nat) :
    calls (verifyLoopFrom z zz k i : List (Event Call)) = [] := by
  induction k generalizing i with
  | zero => rfl
  | succ k ih =>
    unfold verifyLoopFrom
    rw [calls_append, ih]
    split_ifs <;> simp [calls]

theorem calls_verifyLoop {Call : Type} (z zz : Nat → ℚ) (n : Nat) :
    calls (verifyLoop z zz n : List (Event Call)) = [] :=
  calls_verifyLoopFrom z zz n 0

/-- The backend calls of a run of `cublasMain`, by the branch taken. -/
theorem cublas_calls (argc size : Int) (h : Host) (st : CudaStatuses) :
    calls (cublasMain argc size h st).events =
      if argc < 2 then []
      else if st.cublasCreate ≠ 0 then [.cublasCreate]
      else if st.mallocC ≠ 0 then
        [.cublasCreate, .cudaMalloc .A (bufSize size), .cudaMalloc .B (bufSize size),
          .cudaMalloc .C (bufSize size)]
      else if st.memcpyB ≠ 0 then
        [.cublasCreate, .cudaMalloc .A (bufSize size), .cudaMalloc .B (bufSize size),
          .cudaMalloc .C (bufSize size),
          .cudaMemcpyHostToDevice .A .x (bufSize size),
          .cudaMemcpyHostToDevice .B .y (bufSize size),
          .cudaFree .A, .cudaFree .B, .cudaFree .C, .cublasDestroy]
      else if st.dgemm ≠ 0 then
        [.cublasCreate, .cudaMalloc .A (bufSize size), .cudaMalloc .B (bufSize size),
          .cudaMalloc .C (bufSize size),
          .cudaMemcpyHostToDevice .A .x (bufSize size),
          .cudaMemcpyHostToDevice .B .y (bufSize size),
          .cublasDgemm_v2 .NoTrans .NoTrans size size size 1.0 .A size .B size 0.0 .C size,
          .cudaThreadSynchronize,
          .cudaFree .A, .cudaFree .B, .cudaFree .C, .cublasDestroy]
      else
        [.cublasCreate, .cudaMalloc .A (bufSize size), .cudaMalloc .B (bufSize size),
          .cudaMalloc .C (bufSize size),
          .cudaMemcpyHostToDevice .A .x (bufSize size),
          .cudaMemcpyHostToDevice .B .y (bufSize size),
          .cublasDgemm_v2 .NoTrans .NoTrans size size size 1.0 .A size .B size 0.0 .C size,
          .cudaThreadSynchronize,
          .cublasGetMatrix size size sizeofDouble .C size .z size,
          .cudaFree .A, .cudaFree .B, .cudaFree .C, .cublasDestroy] := by
  unfold cublasMain
  simp only [CUBLAS_STATUS_SUCCESS, cudaSuccess, List.append_eq]
  split_ifs <;>
    simp [calls_append, calls_cons_call, calls_cons_out, calls_cons_timing, calls_nil,
      calls_verifyLoop]

/-- The backend calls of a run of `clblasMain`: one fixed sequence once `argv[1]` exists. -/
theorem clblas_calls (argc size : Int) (h : Host) (st : ClStatuses) :
    calls (clblasMain argc size h st).events =
      if argc < 2 then []
      else
        [.clGetPlatformIDs, .clGetDeviceIDs, .clCreateContext, .clCreateCommandQueue,
          .clblasSetup,
          .clCreateBuffer .A .CL_MEM_READ_ONLY (bufSize size),
          .clCreateBuffer .B .CL_MEM_READ_ONLY (bufSize size),
          .clCreateBuffer .C .CL_MEM_READ_WRITE (bufSize size),
          .clEnqueueWriteBuffer .A true 0 (bufSize size) .x,
          .clEnqueueWriteBuffer .B true 0 (bufSize size) .y,
          .clblasDgemm .ColumnMajor .NoTrans .NoTrans (toSizeT size) (toSizeT size)
            (toSizeT size) 1.0 .A 0 (toSizeT size) .B 0 (toSizeT size) 0.0 .C 0 (toSizeT size),
          .clWaitForEvents,
          .clEnqueueReadBuffer .C true 0 (bufSize size) .z,
          .clReleaseMemObject .C, .clReleaseMemObject .B, .clReleaseMemObject .A,
          .clblasTeardown, .clReleaseCommandQueue, .clReleaseContext] := by
  unfold clblasMain
  simp only [clblasSuccess, clblasInvalidDevice, clblasInvalidValue, List.append_eq]
  split_ifs <;>
    simp [calls_append, calls_cons_call, calls_cons_out, calls_cons_timing, calls_nil,
      calls_verifyLoop, calls_cons_err, calls_cons_errCode]

/-- The exit status of `cublasMain`, by the branch taken. -/
theorem cublas_exit (argc size : Int) (h : Host) (st : CudaStatuses) :
    (cublasMain argc size h st).exit =
      if argc < 2 then -1
      else if st.cublasCreate ≠ 0 then EXIT_FAILURE
      else if st.mallocC ≠ 0 then EXIT_FAILURE
      else if st.memcpyB ≠ 0 then EXIT_FAILURE
      else if st.dgemm ≠ 0 then EXIT_FAILURE
      else if st.getMatrix ≠ 0 then EXIT_FAILURE
      else EXIT_SUCCESS := by
  unfold cublasMain
  simp only [CUBLAS_STATUS_SUCCESS, cudaSuccess]
  split_ifs <;> rfl

/-- The exit status of `clblasMain`: `ret` is never assigned after its initialisation. -/
theorem clblas_exit (argc size : Int) (h : Host) (st : ClStatuses) :
    (clblasMain argc size h st).exit = if argc < 2 then -1 else 0 := by
  unfold clblasMain
  simp only []
  split_ifs <;> rfl

theorem out_not_mem_verifyLoopFrom {Call : Type} (t : String) (z zz : Nat → ℚ) (k i : Nat) :
    Event.out t ∉ (verifyLoopFrom z zz k i : List (Event Call)) := by
  induction k generalizing i with
  | zero => simp [verifyLoopFrom]
  | succ k ih =>
    unfold verifyLoopFrom
    simp only [List.mem_append, not_or]
    refine ⟨?_, ih (i + 1)⟩
    split_ifs <;> simp

theorem out_not_mem_verifyLoop {Call : Type} (t : String) (z zz : Nat → ℚ) (n : Nat) :
    Event.out t ∉ (verifyLoop z zz n : List (Event Call)) :=
  out_not_mem_verifyLoopFrom t z zz n 0

/-! ## Error paths of the cuBLAS program -/

/-- C1, the code at the failing input: `cublasCreate` succeeds and the allocation of
`devPtrC` fails. `cublasMain` prints its diagnostic and returns `EXIT_FAILURE` after
four backend calls; no `cudaFree` and no `cublasDestroy` is among them. -/
theorem cublas_alloc_failure_skips_cleanup :
    (cublasMain 2 2 zeroHost cudaAllocCFails).exit = EXIT_FAILURE ∧
    calls (cublasMain 2 2 zeroHost cudaAllocCFails).events =
      [.cublasCreate, .cudaMalloc .A 32, .cudaMalloc .B 32, .cudaMalloc .C 32] ∧
    (∀ b, CudaCall.cudaFree b ∉ calls (cublasMain 2 2 zeroHost cudaAllocCFails).events) ∧
    CudaCall.cublasDestroy ∉ calls (cublasMain 2 2 zeroHost cudaAllocCFails).events := by
  have hb : bufSize 2 = 32 := by decide
  rw [cublas_exit, cublas_calls, hb]
  simp [cudaAllocCFails, cudaOk]

/-- C2, the code at the failing input: the allocation of `devPtrA` fails and the two
later allocations succeed. `cublasMain` issues both host-to-device copies and the GEMM
call and returns `EXIT_SUCCESS`. -/
theorem cublas_first_alloc_failure_unnoticed :
    (cublasMain 2 2 zeroHost cudaAllocAFails).exit = EXIT_SUCCESS ∧
    calls (cublasMain 2 2 zeroHost cudaAllocAFails).events =
      [.cublasCreate, .cudaMalloc .A 32, .cudaMalloc .B 32, .cudaMalloc .C 32,
        .cudaMemcpyHostToDevice .A .x 32, .cudaMemcpyHostToDevice .B .y 32,
        .cublasDgemm_v2 .NoTrans .NoTrans 2 2 2 1.0 .A 2 .B 2 0.0 .C 2,
        .cudaThreadSynchronize,
        .cublasGetMatrix 2 2 8 .C 2 .z 2,
        .cudaFree .A, .cudaFree .B, .cudaFree .C, .cublasDestroy] := by
  have hb : bufSize 2 = 32 := by decide
  rw [cublas_exit, cublas_calls, hb]
  simp [cudaAllocAFails, cudaOk, sizeofDouble]

/-- C3, the code at the failing input: the copy of operand A fails and the copy of
operand B succeeds. `cublasMain` goes on to the GEMM call and returns `EXIT_SUCCESS`. -/
theorem cublas_first_copy_failure_unnoticed :
    (cublasMain 2 2 zeroHost cudaCopyAFails).exit = EXIT_SUCCESS ∧
    calls (cublasMain 2 2 zeroHost cudaCopyAFails).events =
      [.cublasCreate, .cudaMalloc .A 32, .cudaMalloc .B 32, .cudaMalloc .C 32,
        .cudaMemcpyHostToDevice .A .x 32, .cudaMemcpyHostToDevice .B .y 32,
        .cublasDgemm_v2 .NoTrans .NoTrans 2 2 2 1.0 .A 2 .B 2 0.0 .C 2,
        .cudaThreadSynchronize,
        .cublasGetMatrix 2 2 8 .C 2 .z 2,
        .cudaFree .A, .cudaFree .B, .cudaFree .C, .cublasDestroy] := by
  have hb : bufSize 2 = 32 := by decide
  rw [cublas_exit, cublas_calls, hb]
  simp [cudaCopyAFails, cudaOk, sizeofDouble]

/-- Every run of `cublasMain` that passes the allocation check frees the three buffers
and destroys the handle, whether it then fails (copy, GEMM or download failure) or not. -/
theorem cublas_late_paths_clean_up (size : Int) (h : Host) (st : CudaStatuses)
    (hc : st.cublasCreate = 0) (hm : st.mallocC = 0) :
    (∀ b, CudaCall.cudaFree b ∈ calls (cublasMain 2 size h st).events) ∧
    CudaCall.cublasDestroy ∈ calls (cublasMain 2 size h st).events := by
  rw [cublas_calls]
  have h2 : ¬ ((2 : Int) < 2) := by decide
  simp only [hc, hm, h2, if_false, ne_eq, not_true_eq_false]
  constructor
  · intro b
    cases b <;> split_ifs <;> simp
  · split_ifs <;> simp

/-- C4, the code at the failing input: `clblasDgemm` returns `clblasInvalidValue`.
`clblasMain` prints `invalid value!` on `std::cerr`, and its exit status is `0`. -/
theorem clblas_gemm_failure_exit_zero :
    Event.err "invalid value!" ∈ (clblasMain 2 2 zeroHost clGemmFails).events ∧
    (clblasMain 2 2 zeroHost clGemmFails).exit = 0 := by
  refine ⟨?_, by rw [clblas_exit]; simp⟩
  unfold clblasMain
  simp [clGemmFails, clOk, clblasInvalidValue, clblasInvalidDevice, clblasSuccess]

/-- In `clblasMain` every non-success status of `clblasDgemm` prints one of the three
diagnostics on `std::cerr`, and the exit status is `0` all the same. -/
theorem clblas_gemm_failure_diag (size : Int) (h : Host) (st : ClStatuses)
    (hg : st.dgemm ≠ clblasSuccess) :
    (Event.err "invalid device!" ∈ (clblasMain 2 size h st).events ∨
      Event.err "invalid value!" ∈ (clblasMain 2 size h st).events ∨
      Event.errCode st.dgemm ∈ (clblasMain 2 size h st).events) ∧
    (clblasMain 2 size h st).exit = 0 := by
  refine ⟨?_, by rw [clblas_exit]; simp⟩
  unfold clblasMain
  by_cases h1 : st.dgemm = clblasInvalidDevice
  · left
    simp [h1]
  · by_cases h2 : st.dgemm = clblasInvalidValue
    · right
      left
      simp [h2, clblasInvalidValue, clblasInvalidDevice]
    · right
      right
      simp [h1, h2, hg]

/-- In `cublasMain` a GEMM failure prints `failed multiply` and the exit status is
`EXIT_FAILURE`, which is not zero. -/
theorem cublas_gemm_failure_exit (size : Int) (h : Host) (st : CudaStatuses)
    (hc : st.cublasCreate = 0) (hm : st.mallocC = 0) (hcp : st.memcpyB = 0)
    (hg : st.dgemm ≠ 0) :
    Event.out "failed multiply" ∈ (cublasMain 2 size h st).events ∧
    (cublasMain 2 size h st).exit = EXIT_FAILURE ∧ EXIT_FAILURE ≠ 0 := by
  refine ⟨?_, by rw [cublas_exit]; simp [hc, hm, hcp, hg], by decide⟩
  unfold cublasMain
  simp [hc, hm, hcp, hg, CUBLAS_STATUS_SUCCESS, cudaSuccess]

/-! ## Lifecycle and ordering of the backend calls -/

/-- C7: in both programs, for every argument count, size, host memory and combination
of backend statuses, at each teardown call (`cublasDestroy`; `clblasTeardown`,
`clReleaseCommandQueue`, `clReleaseContext`) no device buffer is live, each of the three
buffers has been released exactly once before it, and no buffer is released more than
once in the whole run. -/
theorem teardown_after_all_releases (argc size : Int) (h : Host) (cu : CudaStatuses)
    (cl : ClStatuses) :
    TeardownSafe ((calls (cublasMain argc size h cu).events).map CudaCall.bufOp) ∧
    TeardownSafe ((calls (clblasMain argc size h cl).events).map ClCall.bufOp) := by
  constructor
  · rw [cublas_calls]
    split_ifs <;> simp only [List.map, CudaCall.bufOp] <;> decide
  · rw [clblas_calls]
    split_ifs <;> simp only [List.map, ClCall.bufOp] <;> decide

/-- C9: in both programs, for every argument count, size, host memory and combination
of backend statuses, each download of the result in the call trace is preceded, in this
order, by the blocking upload of A, the blocking upload of B, the GEMM call and the
synchronisation barrier (`cudaThreadSynchronize`, `clWaitForEvents`). -/
theorem download_after_uploads_gemm_barrier (argc size : Int) (h : Host)
    (cu : CudaStatuses) (cl : ClStatuses) :
    OrderedOffload ((calls (cublasMain argc size h cu).events).map CudaCall.stage) ∧
    OrderedOffload ((calls (clblasMain argc size h cl).events).map ClCall.stage) := by
  constructor
  · rw [cublas_calls]
    split_ifs <;> simp only [List.map, CudaCall.stage] <;> decide
  · rw [clblas_calls]
    split_ifs <;> simp only [List.map, ClCall.stage] <;> decide

/-- C8: in both programs, with `argc < 2` the run consists of the usage message alone,
returns `-1` (which is not zero) and makes no backend call; with `argc ≥ 2` the usage
message is not printed and the return value is not `-1`. -/
theorem usage_branch (argc size : Int) (h : Host) (cu : CudaStatuses) (cl : ClStatuses) :
    (argc < 2 →
      (cublasMain argc size h cu).events = [Event.out usageText] ∧
      (cublasMain argc size h cu).exit = -1 ∧
      calls (cublasMain argc size h cu).events = [] ∧
      (clblasMain argc size h cl).events = [Event.out usageText] ∧
      (clblasMain argc size h cl).exit = -1 ∧
      calls (clblasMain argc size h cl).events = [] ∧
      (-1 : Int) ≠ 0) ∧
    (2 ≤ argc →
      Event.out usageText ∉ (cublasMain argc size h cu).events ∧
      (cublasMain argc size h cu).exit ≠ -1 ∧
      Event.out usageText ∉ (clblasMain argc size h cl).events ∧
      (clblasMain argc size h cl).exit ≠ -1) := by
  constructor
  · intro ha
    refine ⟨?_, ?_, ?_, ?_, ?_, ?_, by decide⟩
    · simp [cublasMain, ha]
    · simp [cublasMain, ha]
    · simp [cublas_calls, ha]
    · simp [clblasMain, ha]
    · simp [clblasMain, ha]
    · simp [clblas_calls, ha]
  · intro ha
    have hn : ¬ argc < 2 := by omega
    refine ⟨?_, ?_, ?_, ?_⟩
    · unfold cublasMain
      simp only [hn, if_false, List.append_eq]
      split_ifs <;> simp [usageText, out_not_mem_verifyLoop]
    · rw [cublas_exit]
      simp only [hn, if_false, EXIT_FAILURE, EXIT_SUCCESS]
      split_ifs <;> decide
    · unfold clblasMain
      simp only [hn, if_false, List.append_eq]
      split_ifs <;> simp [usageText, out_not_mem_verifyLoop]
    · rw [clblas_exit]
      simp [hn]

/-- Witness of `usage_branch`: one run of each branch, `argc = 1` and `argc = 2`. -/
theorem usage_branch_witness :
    ((1 : Int) < 2 ∧
      (cublasMain 1 2 zeroHost cudaOk).events = [Event.out usageText] ∧
      (cublasMain 1 2 zeroHost cudaOk).exit = -1 ∧
      calls (cublasMain 1 2 zeroHost cudaOk).events = [] ∧
      (clblasMain 1 2 zeroHost clOk).events = [Event.out usageText] ∧
      (clblasMain 1 2 zeroHost clOk).exit = -1 ∧
      calls (clblasMain 1 2 zeroHost clOk).events = [] ∧
      (-1 : Int) ≠ 0) ∧
    ((2 : Int) ≤ 2 ∧
      Event.out usageText ∉ (cublasMain 2 2 zeroHost cudaOk).events ∧
      (cublasMain 2 2 zeroHost cudaOk).exit ≠ -1 ∧
      Event.out usageText ∉ (clblasMain 2 2 zeroHost clOk).events ∧
      (clblasMain 2 2 zeroHost clOk).exit ≠ -1) :=
  ⟨⟨by decide, (usage_branch 1 2 zeroHost cudaOk clOk).1 (by decide)⟩,
   ⟨by decide, (usage_branch 2 2 zeroHost cudaOk clOk).2 (by decide)⟩⟩

/-! ## The byte count `bufSize` -/

/-- As long as `size * size` fits in an `int`, `bufSize` is the exact byte count. -/
theorem bufSize_exact (n : Int) (h0 : 0 ≤ n) (h1 : n * n < 2 ^ 31) :
    (bufSize n : Int) = n * n * 8 := by
  have hnn : 0 ≤ n * n := mul_nonneg h0 h0
  unfold bufSize toSizeT wrapInt32 sizeofDouble
  generalize n * n = v at *
  omega

/-- C5, the code at the failing input: `46341` is positive and fits in an `int`, but
`size * size` does not, and `bufSize` is `18446744056529719496` where the exact byte
count is `17179906248`. -/
theorem bufSize_overflows_at_46341 :
    (0 : Int) < 46341 ∧ (46341 : Int) < 2 ^ 31 ∧
    bufSize 46341 = 18446744056529719496 ∧
    (46341 : Int) * 46341 * 8 = 17179906248 ∧
    (bufSize 46341 : Int) ≠ 46341 * 46341 * 8 := by
  have hb : bufSize 46341 = 18446744056529719496 := by decide
  refine ⟨by decide, by decide, hb, by decide, ?_⟩
  rw [hb]
  decide

/-! ## The verification loop -/

/-- The CPU reference `armaMul` is the matrix product of its operands. -/
theorem armaMul_eq_mul (n : Nat) (x y : Nat → ℚ) :
    asMatrix n (armaMul n x y) = asMatrix n x * asMatrix n y := by
  ext i j
  have hi := i.isLt
  have hj := j.isLt
  have hn : 0 < n := by omega
  have hlt : i.val + j.val * n < n * n := by
    have h1 : (j.val + 1) * n ≤ n * n := Nat.mul_le_mul_right n hj
    have h2 : (j.val + 1) * n = j.val * n + n := by ring
    omega
  have hmod : (i.val + j.val * n) % n = i.val := by
    rw [Nat.add_mul_mod_self_right, Nat.mod_eq_of_lt hi]
  have hdiv : (i.val + j.val * n) / n = j.val := by
    rw [Nat.add_mul_div_right _ _ hn, Nat.div_eq_of_lt hi, Nat.zero_add]
  rw [Matrix.mul_apply]
  simp only [asMatrix, armaMul, hlt, if_true, hmod, hdiv]
  rw [Finset.sum_range]

/-- Memory at the end of the all-success run of `cublasMain`. -/
theorem cublas_mem_ok (size : Int) (h : Host) :
    (cublasMain 2 size h cudaOk).mem =
      getMatrix
        (dgemm
          (writeDevice (writeDevice { dev := h.dev0, z := h.z0 } .A 0 (bufSize size) h.x)
            .B 0 (bufSize size) h.y)
          .ColumnMajor .NoTrans .NoTrans size.toNat size.toNat size.toNat 1 .A 0 size.toNat
          .B 0 size.toNat 0 .C 0 size.toNat)
        size.toNat size.toNat .C size.toNat size.toNat := by
  have h1 : (1.0 : ℚ) = 1 := by norm_num
  have h0 : (0.0 : ℚ) = 0 := by norm_num
  unfold cublasMain
  simp [cudaOk, onSuccess, CUBLAS_STATUS_SUCCESS, cudaSuccess, h1, h0]

/-- Memory at the end of the all-success run of `clblasMain`. -/
theorem clblas_mem_ok (size : Int) (h : Host) :
    (clblasMain 2 size h clOk).mem =
      readDevice
        (dgemm
          (writeDevice (writeDevice { dev := h.dev0, z := h.z0 } .A 0 (bufSize size) h.x)
            .B 0 (bufSize size) h.y)
          .ColumnMajor .NoTrans .NoTrans (toSizeT size) (toSizeT size) (toSizeT size) 1 .A 0
          (toSizeT size) .B 0 (toSizeT size) 0 .C 0 (toSizeT size))
        .C 0 (bufSize size) := by
  have h1 : (1.0 : ℚ) = 1 := by norm_num
  have h0 : (0.0 : ℚ) = 0 := by norm_num
  unfold clblasMain
  simp [clOk, onSuccess, h1, h0]

/-- Reference GEMM with the parameters of both programs: entry `(i, j)` of the result
is the dot product of row `i` of `A` and column `j` of `B`, whatever `C` held. -/
theorem gemmRef_entry (n : Nat) (A B C : Nat → ℚ) (i j : Nat) (hi : i < n) (hj : j < n) :
    gemmRef .ColumnMajor .NoTrans .NoTrans n n n 1 A 0 n B 0 n 0 C 0 n (i + j * n) =
      Finset.sum (Finset.range n) (fun l => A (i + l * n) * B (l + j * n)) := by
  have hn : 0 < n := by omega
  have hmod : (i + j * n) % n = i := by
    rw [Nat.add_mul_mod_self_right, Nat.mod_eq_of_lt hi]
  have hdiv : (i + j * n) / n = j := by
    rw [Nat.add_mul_div_right _ _ hn, Nat.div_eq_of_lt hi, Nat.zero_add]
  simp [gemmRef, opElem, hn, hmod, hdiv, hi, hj]

theorem index_lt_sq (n i l : Nat) (hi : i < n) (hl : l < n) : i + l * n < n * n := by
  have h1 : (l + 1) * n ≤ n * n := Nat.mul_le_mul_right n hl
  have h2 : (l + 1) * n = l * n + n := by ring
  omega

/-- After both uploads of `bytes = 8 * n * n` bytes and the GEMM call, entry `(i, j)` of
device buffer C is the dot product of row `i` of `x` and column `j` of `y`. -/
theorem device_result_entry (n bytes : Nat) (x y : Nat → ℚ) (m0 : Mem)
    (hb : bytes / sizeofDouble = n * n) (i j : Nat) (hi : i < n) (hj : j < n) :
    (dgemm (writeDevice (writeDevice m0 .A 0 bytes x) .B 0 bytes y)
      .ColumnMajor .NoTrans .NoTrans n n n 1 .A 0 n .B 0 n 0 .C 0 n).dev .C (i + j * n) =
      Finset.sum (Finset.range n) (fun l => x (i + l * n) * y (l + j * n)) := by
  simp only [dgemm, if_true]
  rw [gemmRef_entry n _ _ _ i j hi hj]
  apply Finset.sum_congr rfl
  intro l hl
  have hl2 : l < n := Finset.mem_range.mp hl
  have ha : i + l * n < n * n := index_lt_sq n i l hi hl2
  have hb2 : l + j * n < n * n := index_lt_sq n l j hl2 hj
  simp [writeDevice, hb, ha, hb2]

/-- Under the reference semantics of the backend, with every call succeeding and
`size * size` fitting in an `int`, the matrix downloaded into `z` is the product `x * y`
in both programs, for every initial content of host and device memory. -/
theorem gemm_computes_product (n : Nat) (h : Host) (h1 : n * n < 2 ^ 31) :
    asMatrix n (cublasMain 2 (n : Int) h cudaOk).mem.z = asMatrix n h.x * asMatrix n h.y ∧
    asMatrix n (clblasMain 2 (n : Int) h clOk).mem.z = asMatrix n h.x * asMatrix n h.y := by
  have hbi : (bufSize (n : Int) : Int) = (n : Int) * n * 8 :=
    bufSize_exact n (Int.ofNat_nonneg n) (by exact_mod_cast h1)
  have hb : bufSize (n : Int) = n * n * 8 := by exact_mod_cast hbi
  have hbd : bufSize (n : Int) / sizeofDouble = n * n := by
    rw [hb, sizeofDouble]
    omega
  have hsz : toSizeT (n : Int) = n := by
    have hlt : n < 2 ^ 64 := by nlinarith
    unfold toSizeT
    omega
  constructor
  · ext i j
    rw [cublas_mem_ok, Matrix.mul_apply]
    simp only [Int.toNat_ofNat, asMatrix]
    have hi := i.isLt
    have hj := j.isLt
    have hn : 0 < n := by omega
    have hmod : (i.val + j.val * n) % n = i.val := by
      rw [Nat.add_mul_mod_self_right, Nat.mod_eq_of_lt hi]
    have hdiv : (i.val + j.val * n) / n = j.val := by
      rw [Nat.add_mul_div_right _ _ hn, Nat.div_eq_of_lt hi, Nat.zero_add]
    have hz : (getMatrix
        (dgemm (writeDevice (writeDevice { dev := h.dev0, z := h.z0 } .A 0 (bufSize n) h.x)
          .B 0 (bufSize n) h.y)
          .ColumnMajor .NoTrans .NoTrans n n n 1 .A 0 n .B 0 n 0 .C 0 n)
        n n .C n n).z (i.val + j.val * n) =
        (dgemm (writeDevice (writeDevice { dev := h.dev0, z := h.z0 } .A 0 (bufSize n) h.x)
          .B 0 (bufSize n) h.y)
          .ColumnMajor .NoTrans .NoTrans n n n 1 .A 0 n .B 0 n 0 .C 0 n).dev .C
          (i.val + j.val * n) := by
      simp [getMatrix, hmod, hdiv, hn, hi, hj]
    rw [hz, device_result_entry n _ h.x h.y _ hbd i.val j.val hi hj, Finset.sum_range]
  · ext i j
    rw [clblas_mem_ok, Matrix.mul_apply]
    simp only [Int.toNat_ofNat, asMatrix, hsz]
    have hi := i.isLt
    have hj := j.isLt
    have hp : i.val + j.val * n < n * n := index_lt_sq n i.val j.val hi hj
    have hz : (readDevice
        (dgemm (writeDevice (writeDevice { dev := h.dev0, z := h.z0 } .A 0 (bufSize n) h.x)
          .B 0 (bufSize n) h.y)
          .ColumnMajor .NoTrans .NoTrans n n n 1 .A 0 n .B 0 n 0 .C 0 n)
        .C 0 (bufSize n)).z (i.val + j.val * n) =
        (dgemm (writeDevice (writeDevice { dev := h.dev0, z := h.z0 } .A 0 (bufSize n) h.x)
          .B 0 (bufSize n) h.y)
          .ColumnMajor .NoTrans .NoTrans n n n 1 .A 0 n .B 0 n 0 .C 0 n).dev .C
          (i.val + j.val * n) := by
      simp [readDevice, hbd, hp]
    rw [hz, device_result_entry n _ h.x h.y _ hbd i.val j.val hi hj, Finset.sum_range]

/-- C6, the code at the failing input `size = 65536` with every backend call succeeding
and all-ones operands: both programs issue the GEMM call with the parameters the claim
lists, but `size * size` wraps to `0`, so `bufSize` is `0`, the uploads copy nothing, and
the matrix left in `z` is not the product `x * y` (entry `(0, 0)` is `0`, not `65536`). -/
theorem gemm_product_wrong_at_65536 :
    bufSize 65536 = 0 ∧
    CudaCall.cublasDgemm_v2 .NoTrans .NoTrans 65536 65536 65536 1.0 .A 65536 .B 65536 0.0
      .C 65536 ∈ calls (cublasMain 2 65536 onesHost cudaOk).events ∧
    ClCall.clblasDgemm .ColumnMajor .NoTrans .NoTrans 65536 65536 65536 1.0 .A 0 65536
      .B 0 65536 0.0 .C 0 65536 ∈ calls (clblasMain 2 65536 onesHost clOk).events ∧
    (cublasMain 2 65536 onesHost cudaOk).mem.z 0 = 0 ∧
    (clblasMain 2 65536 onesHost clOk).mem.z 0 = 0 ∧
    (asMatrix 65536 onesHost.x * asMatrix 65536 onesHost.y) 0 0 = 65536 ∧
    asMatrix 65536 (cublasMain 2 65536 onesHost cudaOk).mem.z ≠
      asMatrix 65536 onesHost.x * asMatrix 65536 onesHost.y ∧
    asMatrix 65536 (clblasMain 2 65536 onesHost clOk).mem.z ≠
      asMatrix 65536 onesHost.x * asMatrix 65536 onesHost.y := by
  have hb : bufSize 65536 = 0 := by decide
  have hs : toSizeT 65536 = 65536 := by decide
  have hcu : (cublasMain 2 65536 onesHost cudaOk).mem.z 0 = 0 := by
    rw [cublas_mem_ok, hb]
    simp [getMatrix, dgemm, gemmRef, opElem, writeDevice, onesHost]
  have hcl : (clblasMain 2 65536 onesHost clOk).mem.z 0 = 0 := by
    rw [clblas_mem_ok, hb]
    simp [readDevice, dgemm, writeDevice, onesHost]
  have hprod : (asMatrix 65536 onesHost.x * asMatrix 65536 onesHost.y) 0 0 = 65536 := by
    rw [Matrix.mul_apply]
    simp only [asMatrix, onesHost, mul_one, Finset.sum_const, Finset.card_univ,
      Fintype.card_fin, nsmul_eq_mul]
    norm_num
  refine ⟨hb, ?_, ?_, hcu, hcl, hprod, ?_, ?_⟩
  · rw [cublas_calls]
    simp [cudaOk]
  · rw [clblas_calls, hs]
    simp
  · intro heq
    have h00 := congrFun (congrFun heq 0) 0
    rw [hprod] at h00
    simp only [asMatrix, Fin.val_zero, Nat.zero_mul, Nat.add_zero] at h00
    rw [hcu] at h00
    norm_num at h00
  · intro heq
    have h00 := congrFun (congrFun heq 0) 0
    rw [hprod] at h00
    simp only [asMatrix, Fin.val_zero, Nat.zero_mul, Nat.add_zero] at h00
    rw [hcl] at h00
    norm_num at h00

end GemmBench
